import Mathlib

/-!
Shallow embedding of the libatk-rs command codec (`src/command.rs`,
`src/types.rs`).  Machine integers (`u8`, `u16`, `usize`) are modelled as
`Nat` with explicit `% 256` / `% 65536` where the source wraps or casts;
`usize` subtraction and slice indexing that can panic in the source are
modelled by an explicit `panic` outcome (checked-arithmetic semantics).
Fallible mutators take `&mut self` in the source, so each is modelled as a
function returning the outcome together with the state after the call.
-/

set_option maxRecDepth 4000

namespace Libatk

/-- `static BASE_OFFSET: usize = 0x5` — offset of the data field. -/
def BASE_OFFSET : Nat := 0x5

/-- `static CMD_LEN: usize = 0x10` — total frame length. -/
def CMD_LEN : Nat := 0x10

/-- Modelled from the spec: `report_id` is the descriptor-supplied
transport-level tag folded into the checksum (`crate::device::REPORT_ID`,
whose defining constant is not part of the sources under `src/`).  The spec
gives it no numeric value, so the whole development is parameterized over
it; theorems quantify over `reportId` and witnesses pick concrete values. -/
def ReportIdParam : Type := Nat

/-- The error enumeration of `src/types.rs` (codec-level variants;
`HidError`/`ParseError` wrap the external transport and never arise in the
codec itself). -/
inductive Error where
  | InvalidBufferLength (expected actual : Nat)
  | InvalidCommandId (id : Nat)
  | InvalidEEPROMAddress (addr : Nat)
  | DataTooLarge (len : Nat)
  | InvalidDataLength (offset dataLen allowed : Nat)
  | InvalidOffset (offset : Nat)
  | OffsetNotAligned (offset : Nat)
deriving DecidableEq

/-- The sparse EEPROM address allow-list: exactly the discriminants accepted
by `impl TryFrom<u16> for EEPROMAddress` in `src/types.rs`. -/
def addrList : List Nat :=
  [0x0, 0x1, 0x2, 0x3, 0x4, 0x5, 0xa, 0xb, 0xc, 0x14, 0x1c, 0x24, 0x2c,
   0x34, 0x3c, 0x44, 0x4c, 0x4d, 0x4e, 0x4f, 0x50, 0x51, 0x52, 0x53, 0x54,
   0x55, 0x56, 0x57, 0x58, 0x59, 0x5a, 0x5b, 0x5c, 0x5d, 0x5e, 0x5f, 0xa9,
   0xaa, 0xab, 0xac, 0xad, 0xae, 0xaf, 0xb0, 0xb1, 0xb2, 0xb3, 0xb4, 0xb5,
   0xb6, 0xb7, 0xb8, 0xb9, 0xba, 0xbb, 0xbc, 0x60, 0x64, 0x68, 0x6c, 0x70,
   0x74, 0x78, 0x7c, 0x80, 0x84, 0x88, 0x8c, 0x90, 0x94, 0x98, 0x9c,
   0x100, 0x120, 0x140, 0x160, 0x180, 0x1a0, 0x1c0, 0x1e0, 0x200, 0x220,
   0x240, 0x260, 0x280, 0x2a0, 0x2c0, 0x2e0, 0x300, 0x480, 0x600, 0x780,
   0x900, 0xa80, 0xc00, 0xd80, 0xf00, 0x1080, 0x1200, 0x1380, 0x1500,
   0x1680, 0x1800, 0x1980]

/-- `Command<T>` of `src/command.rs`: the enum-typed fields `command_id`
(`CommandId`, discriminants `0x0..=0x1b`) and `eeprom_address`
(`EEPROMAddress`, discriminants `addrList`) are stored by their numeric
value; the phantom descriptor parameter carries no data and is dropped. -/
structure Command where
  command_id : Nat
  status : Nat
  eeprom_address : Nat
  data_len : Nat
  data : List Nat
  checksum : Nat
deriving DecidableEq

/-- `impl Default for Command`: `CommandId::Zero`, status 0,
`EEPROMAddress::ReportRate` (= 0x0), `data_len` 0, a zero buffer of
`CMD_LEN - BASE_OFFSET - 1` bytes, and the literal checksum 0 (the source
does NOT recompute the checksum here). -/
def Command.default : Command :=
  { command_id := 0x0
    status := 0
    eeprom_address := 0x0
    data_len := 0
    data := List.replicate (CMD_LEN - BASE_OFFSET - 1) 0
    checksum := 0 }

/-- Outcome of a `&mut self` method returning `Result<(), Error>`: the
state after the call is part of the outcome (on `panic` the program dies,
so no state is observable). -/
inductive Res where
  | ok (c : Command)
  | err (e : Error) (c : Command)
  | panic
deriving DecidableEq

/-- The state left behind by a non-panicking call. -/
def stOf : Res → Option Command
  | .ok c => some c
  | .err _ c => some c
  | .panic => none

/-- Outcome of `TryFrom<&[u8]>` (no receiver state). -/
inductive PRes where
  | ok (c : Command)
  | err (e : Error)
  | panic
deriving DecidableEq

/-- `u8::wrapping_sub`: `(a - b) mod 256` on byte values. -/
def wrappingSub (a b : Nat) : Nat := (a % 256 + 256 - b % 256) % 256

/-- The `u16` accumulation inside `Command::set_checksum`:
`REPORT_ID + command_id + status + eeprom_address + data_len + Σ data`.
(For byte-valued fields and the bounded address/data sizes the sum stays
far below `2^16`, so plain `Nat` addition is faithful.) -/
def checksumSum (reportId : Nat) (c : Command) : Nat :=
  reportId + c.command_id + c.status + c.eeprom_address + c.data_len + c.data.sum

/-- `Command::set_checksum`: `checksum = 0x55.wrapping_sub(sum & 0xff)`. -/
def set_checksum (reportId : Nat) (c : Command) : Command :=
  { c with checksum := wrappingSub 0x55 (checksumSum reportId c % 256) }

/-- `Command::set_id` (argument is a `CommandId`, hence `≤ 0x1b` in any
actual call): assigns and recomputes the checksum. -/
def set_id (reportId : Nat) (c : Command) (id : Nat) : Command :=
  set_checksum reportId { c with command_id := id }

/-- `Command::set_status`: assigns and recomputes the checksum. -/
def set_status (reportId : Nat) (c : Command) (status : Nat) : Command :=
  set_checksum reportId { c with status := status }

/-- `Command::set_eeprom_address` (argument is an `EEPROMAddress`, hence a
member of `addrList` in any actual call): assigns and recomputes. -/
def set_eeprom_address (reportId : Nat) (c : Command) (address : Nat) : Command :=
  set_checksum reportId { c with eeprom_address := address }

/-- `Command::set_data_len`: rejects `len > CMD_LEN - BASE_OFFSET` (= 11)
with `DataTooLarge` before mutating; otherwise assigns and recomputes. -/
def set_data_len (reportId : Nat) (c : Command) (len : Nat) : Res :=
  if CMD_LEN - BASE_OFFSET < len then .err (.DataTooLarge len) c
  else .ok (set_checksum reportId { c with data_len := len })

/-- `Command::set_data_byte`: the guard is `offset > self.data_len() - 1`
in `usize` arithmetic, so `data_len = 0` underflows (a checked-build
panic); the subsequent `self.data[offset] = value` panics when `offset`
is outside the stored buffer. -/
def set_data_byte (reportId : Nat) (c : Command) (value offset : Nat) : Res :=
  if c.data_len = 0 then .panic
  else if c.data_len - 1 < offset then .err (.InvalidOffset offset) c
  else if offset < c.data.length then
    .ok (set_checksum reportId { c with data := c.data.set offset value })
  else .panic

/-- `data[offset..offset+d.len()].copy_from_slice(d)`. -/
def writeSlice (xs : List Nat) (offset : Nat) (d : List Nat) : List Nat :=
  xs.take offset ++ d ++ xs.drop (offset + d.length)

/-- `Command::set_data`: rejects `offset + data.len() > self.data_len()`
with `InvalidDataLength { offset, data_len: data.len(), allowed }` before
mutating; the in-place copy panics when the range exceeds the buffer. -/
def set_data (reportId : Nat) (c : Command) (d : List Nat) (offset : Nat) : Res :=
  if c.data_len < offset + d.length then
    .err (.InvalidDataLength offset d.length c.data_len) c
  else if offset + d.length ≤ c.data.length then
    .ok (set_checksum reportId { c with data := writeSlice c.data offset d })
  else .panic

/-- `Command::set_data_byte_with_checksum`: odd offsets are rejected first;
then `set_data_byte(value, offset)?` followed by
`set_data_byte(0x55.wrapping_sub(value), offset + 1)?` — the `?` after the
first successful write propagates the second call's error while `self`
keeps the first write (a partial write). -/
def set_data_byte_with_checksum (reportId : Nat) (c : Command) (value offset : Nat) : Res :=
  if offset % 2 ≠ 0 then .err (.OffsetNotAligned offset) c
  else
    match set_data_byte reportId c value offset with
    | .ok c1 => set_data_byte reportId c1 (wrappingSub 0x55 value) (offset + 1)
    | .err e c1 => .err e c1
    | .panic => .panic

/-- `impl TryFrom<&[u8]> for Command`: length guard, command-id range
check (`0x0..=0x1b`), big-endian address with allow-list membership, then
the slice `raw[BASE_OFFSET..BASE_OFFSET + data_len]`, which panics when it
overruns the 16-byte buffer; the trailing checksum byte is stored
verbatim. -/
def try_from (raw : List Nat) : PRes :=
  if raw.length ≠ CMD_LEN then
    .err (.InvalidBufferLength CMD_LEN raw.length)
  else if 0x1b < raw.getD 0x0 0 then
    .err (.InvalidCommandId (raw.getD 0x0 0))
  else if raw.getD 0x2 0 * 256 + raw.getD 0x3 0 ∉ addrList then
    .err (.InvalidEEPROMAddress (raw.getD 0x2 0 * 256 + raw.getD 0x3 0))
  else if BASE_OFFSET + raw.getD 0x4 0 ≤ raw.length then
    .ok { command_id := raw.getD 0x0 0
          status := raw.getD 0x1 0
          eeprom_address := raw.getD 0x2 0 * 256 + raw.getD 0x3 0
          data_len := raw.getD 0x4 0
          data := (raw.drop BASE_OFFSET).take (raw.getD 0x4 0)
          checksum := raw.getD 0xf 0 }
  else .panic

/-- `Command::as_bytes`: header, big-endian address, `data_len as u8`, the
whole stored buffer, zero padding up to the checksum position, then the
checksum byte.  `CMD_LEN - raw.len() - 1` underflows (panics) when the
stored buffer holds more than `CMD_LEN - BASE_OFFSET - 1` bytes. -/
def as_bytes (c : Command) : Option (List Nat) :=
  if 5 + c.data.length + 1 ≤ CMD_LEN then
    some ([c.command_id % 256, c.status, c.eeprom_address / 256 % 256,
           c.eeprom_address % 256, c.data_len % 256] ++ c.data ++
          List.replicate (CMD_LEN - (5 + c.data.length) - 1) 0 ++ [c.checksum])
  else none

/-- The frame-sum invariant of the protocol:
`(report_id + command_id + status + eeprom_address + data_len + Σ data
+ checksum) mod 256 = 0x55`. -/
def ChecksumOk (reportId : Nat) (c : Command) : Prop :=
  (checksumSum reportId c + c.checksum) % 256 = 0x55

instance (reportId : Nat) (c : Command) : Decidable (ChecksumOk reportId c) := by
  unfold ChecksumOk; infer_instance

/-- The Commands a caller can hold after starting from `Command::default()`
and invoking the public mutators.  Arguments are constrained exactly as
the Rust signatures constrain them (`u8` values below 256, a `CommandId`
discriminant, an `EEPROMAddress` discriminant); for the fallible mutators
both the `Ok` and the `Err` outcome leave an observable state (`stOf`),
while a panic aborts the program. -/
inductive Reachable (reportId : Nat) : Command → Prop where
  | dflt : Reachable reportId Command.default
  | sid : ∀ c id, Reachable reportId c → id ≤ 0x1b →
      Reachable reportId (set_id reportId c id)
  | sstatus : ∀ c s, Reachable reportId c → s < 256 →
      Reachable reportId (set_status reportId c s)
  | saddr : ∀ c a, Reachable reportId c → a ∈ addrList →
      Reachable reportId (set_eeprom_address reportId c a)
  | slen : ∀ c n out, Reachable reportId c →
      stOf (set_data_len reportId c n) = some out → Reachable reportId out
  | sdata : ∀ c d off out, Reachable reportId c → (∀ b ∈ d, b < 256) →
      stOf (set_data reportId c d off) = some out → Reachable reportId out
  | sbyte : ∀ c v off out, Reachable reportId c → v < 256 →
      stOf (set_data_byte reportId c v off) = some out → Reachable reportId out
  | sbytecs : ∀ c v off out, Reachable reportId c → v < 256 →
      stOf (set_data_byte_with_checksum reportId c v off) = some out →
      Reachable reportId out

/-- A Command observable outside the codec: built by mutators from the
default, or returned by a successful parse. -/
def Observable (reportId : Nat) (c : Command) : Prop :=
  Reachable reportId c ∨ ∃ raw, try_from raw = PRes.ok c

/-- Structural invariant of every mutator-built Command: the stored buffer
keeps its `CMD_LEN - BASE_OFFSET - 1 = 10` bytes, `data_len` stays at most
`CMD_LEN - BASE_OFFSET = 11`, and the enum-backed fields stay in range. -/
def Shape (c : Command) : Prop :=
  c.data.length = 10 ∧ c.data_len ≤ 11 ∧ c.command_id ≤ 0x1b ∧
  c.eeprom_address ∈ addrList

/-- A Command parsed from 15 zero bytes and an arbitrary trailing byte. -/
def parsedZero (b : Nat) : Command :=
  { command_id := 0, status := 0, eeprom_address := 0, data_len := 0,
    data := [], checksum := b }

/-- The Command with `data_len = 1` reached from the default by
`set_data_len(1)`. -/
def oneBytePre : Command := set_checksum 0 { Command.default with data_len := 1 }

/-- The state `set_data_byte_with_checksum(0x11, 0)` leaves behind when it
returns an error on `oneBytePre`: the first byte is already written. -/
def oneBytePost : Command :=
  set_checksum 0 { oneBytePre with data := [0x11, 0, 0, 0, 0, 0, 0, 0, 0, 0] }

/-- A 16-byte buffer whose `data_len` byte (12) exceeds 11 but whose
command-id byte (0xFF) is itself invalid. -/
def oversizeBadIdRaw : List Nat := 255 :: 0 :: 0 :: 0 :: 12 :: List.replicate 11 0

/-- The Command with `data_len = 2` reached from the default by
`set_data_len(2)`. -/
def oneBytePairPre : Command := set_checksum 0 { Command.default with data_len := 2 }

/-- The Command of the spec's own example: `data_len = 2`, then
`set_data(&[0xAA, 0xBB], 0)`. -/
def exampleCmd : Command :=
  set_checksum 0 { oneBytePairPre with data := writeSlice oneBytePairPre.data 0 [0xAA, 0xBB] }

/-- `set_data_len(10)` from the default. -/
def shrunk1 : Command := set_checksum 0 { Command.default with data_len := 10 }

/-- ... then `set_data_byte(0xAA, 9)`. -/
def shrunk2 : Command := set_checksum 0 { shrunk1 with data := shrunk1.data.set 9 0xAA }

/-- ... then `set_data_len(2)`: a mutator-built Command whose stored byte
9 (0xAA) lies beyond the new `data_len`. -/
def shrunkCmd : Command := set_checksum 0 { shrunk2 with data_len := 2 }

@[simp] theorem set_checksum_command_id (reportId : Nat) (c : Command) :
    (set_checksum reportId c).command_id = c.command_id := rfl

@[simp] theorem set_checksum_status (reportId : Nat) (c : Command) :
    (set_checksum reportId c).status = c.status := rfl

@[simp] theorem set_checksum_eeprom_address (reportId : Nat) (c : Command) :
    (set_checksum reportId c).eeprom_address = c.eeprom_address := rfl

@[simp] theorem set_checksum_data_len (reportId : Nat) (c : Command) :
    (set_checksum reportId c).data_len = c.data_len := rfl

@[simp] theorem set_checksum_data (reportId : Nat) (c : Command) :
    (set_checksum reportId c).data = c.data := rfl

/-- `set_checksum` establishes the frame-sum invariant unconditionally. -/
theorem checksumOk_set_checksum (reportId : Nat) (c : Command) :
    ChecksumOk reportId (set_checksum reportId c) := by
  show (checksumSum reportId c + wrappingSub 0x55 (checksumSum reportId c % 256)) % 256 = 0x55
  unfold wrappingSub
  omega

theorem writeSlice_length (xs : List Nat) (offset : Nat) (d : List Nat)
    (h : offset + d.length ≤ xs.length) :
    (writeSlice xs offset d).length = xs.length := by
  simp only [writeSlice, List.length_append, List.length_take, List.length_drop]
  omega

theorem shape_set_checksum {c : Command} (reportId : Nat) (hc : Shape c) :
    Shape (set_checksum reportId c) := by
  simpa [Shape] using hc

theorem shape_stOf_set_data_len {reportId : Nat} {c : Command} {n : Nat}
    {out : Command} (hc : Shape c)
    (hst : stOf (set_data_len reportId c n) = some out) : Shape out := by
  unfold set_data_len at hst
  split at hst
  · simp only [stOf, Option.some.injEq] at hst
    subst hst; exact hc
  · rename_i hguard
    simp only [stOf, Option.some.injEq] at hst
    subst hst
    refine ⟨by simpa using hc.1, ?_, by simpa using hc.2.2.1, by simpa using hc.2.2.2⟩
    simp only [set_checksum_data_len]
    simp only [CMD_LEN, BASE_OFFSET] at hguard
    omega

theorem shape_stOf_set_data_byte {reportId : Nat} {c : Command} {v off : Nat}
    {out : Command} (hc : Shape c)
    (hst : stOf (set_data_byte reportId c v off) = some out) : Shape out := by
  unfold set_data_byte at hst
  split at hst
  · simp [stOf] at hst
  · split at hst
    · simp only [stOf, Option.some.injEq] at hst
      subst hst; exact hc
    · split at hst
      · simp only [stOf, Option.some.injEq] at hst
        subst hst
        exact ⟨by simpa using hc.1, by simpa using hc.2.1, by simpa using hc.2.2.1,
          by simpa using hc.2.2.2⟩
      · simp [stOf] at hst

theorem shape_stOf_set_data {reportId : Nat} {c : Command} {d : List Nat}
    {off : Nat} {out : Command} (hc : Shape c)
    (hst : stOf (set_data reportId c d off) = some out) : Shape out := by
  unfold set_data at hst
  split at hst
  · simp only [stOf, Option.some.injEq] at hst
    subst hst; exact hc
  · split at hst
    · rename_i hcap
      simp only [stOf, Option.some.injEq] at hst
      subst hst
      refine ⟨?_, by simpa using hc.2.1, by simpa using hc.2.2.1, by simpa using hc.2.2.2⟩
      simp only [set_checksum_data]
      rw [writeSlice_length _ _ _ hcap]
      exact hc.1
    · simp [stOf] at hst

theorem shape_stOf_set_data_byte_with_checksum {reportId : Nat} {c : Command}
    {v off : Nat} {out : Command} (hc : Shape c)
    (hst : stOf (set_data_byte_with_checksum reportId c v off) = some out) :
    Shape out := by
  unfold set_data_byte_with_checksum at hst
  split at hst
  · simp only [stOf, Option.some.injEq] at hst
    subst hst; exact hc
  · split at hst
    · rename_i c1 heq
      exact shape_stOf_set_data_byte (shape_stOf_set_data_byte hc (by rw [heq]; rfl)) hst
    · rename_i e c1 heq
      simp only [stOf, Option.some.injEq] at hst
      subst hst
      have := shape_stOf_set_data_byte hc
        (show stOf (set_data_byte reportId c v off) = some c1 by rw [heq]; rfl)
      exact this
    · simp [stOf] at hst

/-- Every mutator-reachable Command satisfies the structural invariant. -/
theorem reachable_shape {reportId : Nat} {c : Command}
    (h : Reachable reportId c) : Shape c := by
  induction h with
  | dflt => refine ⟨by decide, by decide, by decide, by decide⟩
  | sid c id _ hid ih =>
      exact ⟨by simpa [set_id] using ih.1, by simpa [set_id] using ih.2.1,
        by simpa [set_id] using hid, by simpa [set_id] using ih.2.2.2⟩
  | sstatus c s _ _ ih =>
      exact ⟨by simpa [set_status] using ih.1, by simpa [set_status] using ih.2.1,
        by simpa [set_status] using ih.2.2.1, by simpa [set_status] using ih.2.2.2⟩
  | saddr c a _ ha ih =>
      exact ⟨by simpa [set_eeprom_address] using ih.1,
        by simpa [set_eeprom_address] using ih.2.1,
        by simpa [set_eeprom_address] using ih.2.2.1,
        by simpa [set_eeprom_address] using ha⟩
  | slen c n out _ hst ih => exact shape_stOf_set_data_len ih hst
  | sdata c d off out _ _ hst ih => exact shape_stOf_set_data ih hst
  | sbyte c v off out _ _ hst ih => exact shape_stOf_set_data_byte ih hst
  | sbytecs c v off out _ _ hst ih =>
      exact shape_stOf_set_data_byte_with_checksum ih hst

/-- Characterization of a successful parse: every field of the produced
Command in terms of the input bytes, plus the bounds the guards enforce. -/
theorem try_from_ok {raw : List Nat} {c : Command} (h : try_from raw = PRes.ok c) :
    raw.length = 16 ∧
    c.command_id = raw.getD 0 0 ∧ c.command_id ≤ 0x1b ∧
    c.status = raw.getD 1 0 ∧
    c.eeprom_address = raw.getD 2 0 * 256 + raw.getD 3 0 ∧
    c.eeprom_address ∈ addrList ∧
    c.data_len = raw.getD 4 0 ∧ c.data_len ≤ 11 ∧
    c.data = (raw.drop 5).take c.data_len ∧ c.data.length = c.data_len ∧
    c.checksum = raw.getD 15 0 := by
  unfold try_from at h
  split at h
  · cases h
  · rename_i hlen
    split at h
    · cases h
    · rename_i hid
      split at h
      · cases h
      · rename_i hmem
        split at h
        · rename_i hslice
          simp only [PRes.ok.injEq] at h
          subst h
          simp only [CMD_LEN, BASE_OFFSET] at hlen hslice
          simp only [not_not] at hmem
          refine ⟨by omega, rfl, ?_, rfl, rfl, hmem, rfl, ?_, rfl, ?_, rfl⟩
          · show raw.getD 0x0 0 ≤ 0x1b
            omega
          · show raw.getD 0x4 0 ≤ 11
            omega
          · show (List.take (raw.getD 0x4 0) (List.drop 5 raw)).length = raw.getD 0x4 0
            simp only [List.length_take, List.length_drop]
            omega
        · cases h

/-- Any observable Command has a buffer of exactly 10 bytes (mutator-built)
or of exactly `data_len` bytes (parsed), and `data_len ≤ 11` either way. -/
theorem observable_shape {reportId : Nat} {c : Command} (h : Observable reportId c) :
    ((c.data.length = 10 ∨ c.data.length = c.data_len) ∧ c.data_len ≤ 11) := by
  rcases h with h | ⟨raw, h⟩
  · have := reachable_shape h
    exact ⟨Or.inl this.1, this.2.1⟩
  · have := try_from_ok h
    exact ⟨Or.inr this.2.2.2.2.2.2.2.2.2.1, this.2.2.2.2.2.2.2.1⟩

theorem set_data_len_state {reportId : Nat} {c : Command} {n : Nat} {out : Command}
    (hst : stOf (set_data_len reportId c n) = some out) :
    out = c ∨ ∃ b, out = set_checksum reportId b := by
  unfold set_data_len at hst
  split at hst <;> simp only [stOf, Option.some.injEq] at hst <;> subst hst
  · exact Or.inl rfl
  · exact Or.inr ⟨_, rfl⟩

theorem set_data_state {reportId : Nat} {c : Command} {d : List Nat} {off : Nat}
    {out : Command} (hst : stOf (set_data reportId c d off) = some out) :
    out = c ∨ ∃ b, out = set_checksum reportId b := by
  unfold set_data at hst
  split at hst
  · simp only [stOf, Option.some.injEq] at hst; subst hst; exact Or.inl rfl
  · split at hst
    · simp only [stOf, Option.some.injEq] at hst; subst hst; exact Or.inr ⟨_, rfl⟩
    · simp [stOf] at hst

theorem set_data_byte_state {reportId : Nat} {c : Command} {v off : Nat}
    {out : Command} (hst : stOf (set_data_byte reportId c v off) = some out) :
    out = c ∨ ∃ b, out = set_checksum reportId b := by
  unfold set_data_byte at hst
  split at hst
  · simp [stOf] at hst
  · split at hst
    · simp only [stOf, Option.some.injEq] at hst; subst hst; exact Or.inl rfl
    · split at hst
      · simp only [stOf, Option.some.injEq] at hst; subst hst; exact Or.inr ⟨_, rfl⟩
      · simp [stOf] at hst

theorem set_data_byte_with_checksum_state {reportId : Nat} {c : Command}
    {v off : Nat} {out : Command}
    (hst : stOf (set_data_byte_with_checksum reportId c v off) = some out) :
    out = c ∨ ∃ b, out = set_checksum reportId b := by
  unfold set_data_byte_with_checksum at hst
  split at hst
  · simp only [stOf, Option.some.injEq] at hst; subst hst; exact Or.inl rfl
  · split at hst
    · rename_i c1 heq
      have hc1 : c1 = c ∨ ∃ b, c1 = set_checksum reportId b :=
        set_data_byte_state
          (show stOf (set_data_byte reportId c v off) = some c1 by rw [heq]; rfl)
      rcases set_data_byte_state hst with h2 | h2
      · rw [h2]; exact hc1
      · exact Or.inr h2
    · rename_i e c1 heq
      have hc1 : c1 = c ∨ ∃ b, c1 = set_checksum reportId b :=
        set_data_byte_state
          (show stOf (set_data_byte reportId c v off) = some c1 by rw [heq]; rfl)
      simp only [stOf, Option.some.injEq] at hst
      rw [← hst]
      exact hc1
    · simp [stOf] at hst

/-- Every mutator-reachable Command either carries a recomputed (hence
consistent) checksum, or is the pristine default. -/
theorem reachable_checksumOk {reportId : Nat} {c : Command}
    (h : Reachable reportId c) :
    ChecksumOk reportId c ∨ c = Command.default := by
  induction h with
  | dflt => exact Or.inr rfl
  | sid c id _ _ _ => exact Or.inl (checksumOk_set_checksum _ _)
  | sstatus c s _ _ _ => exact Or.inl (checksumOk_set_checksum _ _)
  | saddr c a _ _ _ => exact Or.inl (checksumOk_set_checksum _ _)
  | slen c n out _ hst ih =>
      rcases set_data_len_state hst with rfl | ⟨b, rfl⟩
      · exact ih
      · exact Or.inl (checksumOk_set_checksum _ _)
  | sdata c d off out _ _ hst ih =>
      rcases set_data_state hst with rfl | ⟨b, rfl⟩
      · exact ih
      · exact Or.inl (checksumOk_set_checksum _ _)
  | sbyte c v off out _ _ hst ih =>
      rcases set_data_byte_state hst with rfl | ⟨b, rfl⟩
      · exact ih
      · exact Or.inl (checksumOk_set_checksum _ _)
  | sbytecs c v off out _ _ hst ih =>
      rcases set_data_byte_with_checksum_state hst with rfl | ⟨b, rfl⟩
      · exact ih
      · exact Or.inl (checksumOk_set_checksum _ _)

theorem getD_append_last (l : List Nat) (x : Nat) :
    (l ++ [x]).getD l.length 0 = x := by
  rw [List.getD_append_right _ _ _ _ (le_refl _)]
  simp

/-- A list whose bytes from position `d` on are all zero has a zero
replicate as its `d`-tail. -/
theorem drop_eq_replicate_zero (l : List Nat) (d n : Nat) (hlen : l.length = n)
    (htail : ∀ i < l.length, d ≤ i → l.getD i 0 = 0) :
    l.drop d = List.replicate (n - d) 0 := by
  rw [List.eq_replicate_iff]
  refine ⟨by simp [hlen], ?_⟩
  intro b hb
  rw [List.mem_iff_getElem] at hb
  obtain ⟨i, hi, hbi⟩ := hb
  rw [List.getElem_drop] at hbi
  have hil : d + i < l.length := by
    simp only [List.length_drop] at hi
    omega
  have := htail (d + i) hil (by omega)
  rw [List.getD_eq_getElem _ _ hil] at this
  rw [hbi] at this
  exact this

/-- `set_data_byte` on an in-range offset (both against `data_len` and the
stored buffer) writes the byte and recomputes the checksum. -/
theorem set_data_byte_ok {reportId : Nat} {c : Command} {v off : Nat}
    (h1 : off < c.data_len) (h2 : off < c.data.length) :
    set_data_byte reportId c v off =
      Res.ok (set_checksum reportId { c with data := c.data.set off v }) := by
  unfold set_data_byte
  rw [if_neg (by omega), if_neg (by omega : ¬(c.data_len - 1 < off)), if_pos h2]

/-- C8: parsing a buffer whose length differs from `CMD_LEN` (16) always
returns `InvalidBufferLength` carrying the expected and actual lengths,
and never panics. -/
theorem parse_rejects_bad_length (raw : List Nat) (h : raw.length ≠ CMD_LEN) :
    try_from raw = PRes.err (Error.InvalidBufferLength CMD_LEN raw.length) := by
  unfold try_from
  rw [if_pos h]

/-- Witness for C8 at the empty buffer. -/
theorem parse_rejects_bad_length_witness :
    ([] : List Nat).length ≠ CMD_LEN ∧
    try_from [] = PRes.err (Error.InvalidBufferLength CMD_LEN 0) :=
  ⟨by decide, parse_rejects_bad_length [] (by decide)⟩

/-- C10: a successful parse stores the trailing byte of the input verbatim
as the checksum; moreover for every report id there is a 16-byte buffer
that parses successfully into a Command whose checksum is inconsistent
with its other fields. -/
theorem parse_checksum_verbatim :
    (∀ raw c, try_from raw = PRes.ok c → c.checksum = raw.getD 15 0) ∧
    (∀ reportId, ∃ raw c, try_from raw = PRes.ok c ∧ ¬ ChecksumOk reportId c) := by
  constructor
  · intro raw c h
    exact (try_from_ok h).2.2.2.2.2.2.2.2.2.2
  · intro reportId
    refine ⟨0 :: 0 :: 0 :: 0 :: 0 :: 0 :: 0 :: 0 :: 0 :: 0 :: 0 :: 0 :: 0 :: 0 :: 0 ::
      [(0x54 + 256 - reportId % 256) % 256],
      parsedZero ((0x54 + 256 - reportId % 256) % 256), rfl, ?_⟩
    show ¬ ((reportId + 0 + 0 + 0 + 0 + List.sum [] +
      (0x54 + 256 - reportId % 256) % 256) % 256 = 0x55)
    simp only [List.sum_nil]
    omega

/-- Witness for C10 at a concrete buffer whose trailing byte is 0x77. -/
theorem parse_checksum_verbatim_witness :
    try_from (List.replicate 15 0 ++ [0x77]) = PRes.ok (parsedZero 0x77) ∧
    (parsedZero 0x77).checksum = (List.replicate 15 0 ++ [0x77]).getD 15 0 :=
  ⟨by decide, parse_checksum_verbatim.1 (List.replicate 15 0 ++ [0x77]) _ (by decide)⟩

/-- C6 (code evaluation at the failing input): on the default Command,
whose `data_len` is 0, `set_data_byte` does not return `InvalidOffset` —
the guard `offset > data_len - 1` underflows in `usize` arithmetic, which
panics in a checked build (and in a wrapping build lets the write through),
for every report id. -/
theorem set_data_byte_underflow (reportId : Nat) :
    set_data_byte reportId Command.default 1 0 = Res.panic := rfl

/-- C2 (code evaluation at the failing input): on a reachable Command with
`data_len = 1`, `set_data_byte_with_checksum(0x11, 0)` writes the first
byte (recomputing the frame checksum) and only then fails with
`InvalidOffset(1)` on the paired byte — a typed error returned after the
state has been mutated, contradicting the no-partial-write policy. -/
theorem partial_write_on_error :
    Reachable 0 oneBytePre ∧
    set_data_byte_with_checksum 0 oneBytePre 0x11 0 =
      Res.err (Error.InvalidOffset 1) oneBytePost ∧
    oneBytePost ≠ oneBytePre :=
  ⟨Reachable.slen Command.default 1 oneBytePre Reachable.dflt (by decide),
   by decide, by decide⟩

/-- C5 counterexample: `set_data_len` accepts the length 11 (which exceeds
the 10-byte payload area) because its guard is `len > CMD_LEN - BASE_OFFSET
= 11`, so the claimed bound 10 is not enforced. -/
theorem set_data_len_accepts_eleven :
    set_data_len 0 Command.default 11 =
      Res.ok { Command.default with data_len := 11, checksum := 74 } := by decide

/-- C5 amended: every observable Command satisfies
`data_len ≤ CMD_LEN - BASE_OFFSET = 11`, and `set_data_len` rejects any
larger length with `DataTooLarge`, leaving the Command unchanged. -/
theorem data_len_capacity :
    (∀ reportId c, Observable reportId c → c.data_len ≤ CMD_LEN - BASE_OFFSET) ∧
    (∀ reportId c len, CMD_LEN - BASE_OFFSET < len →
        set_data_len reportId c len = Res.err (Error.DataTooLarge len) c) := by
  constructor
  · intro reportId c h
    have := (observable_shape h).2
    simp only [CMD_LEN, BASE_OFFSET]
    omega
  · intro reportId c len hlen
    unfold set_data_len
    rw [if_pos hlen]

/-- Witness for C5 at the default Command and the length 12. -/
theorem data_len_capacity_witness :
    Command.default.data_len ≤ CMD_LEN - BASE_OFFSET ∧
    set_data_len 0 Command.default 12 = Res.err (Error.DataTooLarge 12) Command.default :=
  ⟨data_len_capacity.1 0 Command.default (Or.inl Reachable.dflt),
   data_len_capacity.2 0 Command.default 12 (by decide)⟩

/-- C9 counterexample: a 16-byte input whose byte 4 exceeds 11 can still
produce a typed error — the command-id check runs before the slice, so the
claim that no typed error is returned for such inputs is false. -/
theorem parse_typed_error_despite_oversize :
    oversizeBadIdRaw.length = CMD_LEN ∧ 11 < oversizeBadIdRaw.getD 4 0 ∧
    try_from oversizeBadIdRaw = PRes.err (Error.InvalidCommandId 255) := by decide

/-- C9 amended: for a 16-byte buffer, parse never panics when byte 4 is at
most 11; when byte 4 exceeds 11 *and* the command id and address bytes are
valid, the slice `raw[5..5+data_len]` overruns the buffer and parse
panics instead of returning a typed error. -/
theorem parse_panic_boundary :
    (∀ raw, raw.length = CMD_LEN → raw.getD 4 0 ≤ 11 → try_from raw ≠ PRes.panic) ∧
    (∀ raw, raw.length = CMD_LEN → 11 < raw.getD 4 0 → raw.getD 0 0 ≤ 0x1b →
        raw.getD 2 0 * 256 + raw.getD 3 0 ∈ addrList →
        try_from raw = PRes.panic) := by
  constructor
  · intro raw h1 h2
    unfold try_from
    rw [if_neg (by omega)]
    split
    · simp
    · split
      · simp
      · split
        · simp
        · rename_i hslice
          exfalso
          simp only [BASE_OFFSET, CMD_LEN] at hslice h1
          omega
  · intro raw h1 h2 h3 h4
    unfold try_from
    rw [if_neg (by omega), if_neg (by omega : ¬(0x1b < raw.getD 0x0 0)),
      if_neg (not_not_intro h4),
      if_neg (show ¬(BASE_OFFSET + raw.getD 0x4 0 ≤ raw.length) by
        simp only [BASE_OFFSET, CMD_LEN] at *
        omega)]

/-- Witness for C9: a well-formed all-zero buffer does not panic, and a
valid-header buffer with `data_len` byte 12 panics. -/
theorem parse_panic_boundary_witness :
    try_from (List.replicate 16 0) ≠ PRes.panic ∧
    try_from (0 :: 0 :: 0 :: 0 :: 12 :: List.replicate 11 0) = PRes.panic :=
  ⟨parse_panic_boundary.1 (List.replicate 16 0) (by decide) (by decide),
   parse_panic_boundary.2 (0 :: 0 :: 0 :: 0 :: 12 :: List.replicate 11 0)
     (by decide) (by decide) (by decide) (by decide)⟩

/-- C1 amended: every Command reached from the default through at least
one mutator call satisfies the frame-sum invariant for every report id;
the pristine default (stored checksum 0) satisfies it exactly when
`report_id ≡ 0x55 (mod 256)`. -/
theorem checksum_invariant :
    (∀ reportId c, Reachable reportId c →
        ChecksumOk reportId c ∨ c = Command.default) ∧
    (∀ reportId, ChecksumOk reportId Command.default ↔ reportId % 256 = 0x55) := by
  refine ⟨fun reportId c h => reachable_checksumOk h, fun reportId => ?_⟩
  show (reportId + 0 + 0 + 0 + 0 + (List.replicate 10 (0 : Nat)).sum + 0) % 256 = 0x55 ↔
    reportId % 256 = 0x55
  have hz : (List.replicate 10 (0 : Nat)).sum = 0 := rfl
  rw [hz]
  omega

/-- Witness for C1: a mutated Command at report id 8 satisfies the
invariant (or would equal the default, which it does not), and at report
id 0x55 the default itself satisfies it. -/
theorem checksum_invariant_witness :
    (ChecksumOk 8 (set_status 8 Command.default 7) ∨
      set_status 8 Command.default 7 = Command.default) ∧
    (ChecksumOk 0x55 Command.default ↔ 0x55 % 256 = 0x55) :=
  ⟨checksum_invariant.1 8 _ (Reachable.sstatus Command.default 7 Reachable.dflt (by decide)),
   checksum_invariant.2 0x55⟩

/-- C1 counterexample: the parsed Command `parsedZero 0xFF` is observable
(obtained by a successful parse) yet fails the invariant at report id
0x55, while the default fails it at report id 0x56; since the default
demands `report_id ≡ 0x55` and this parsed Command demands
`report_id ≡ 0x56`, no report id satisfies the claim for all observable
Commands (see `default_and_parsed_incompatible`). -/
theorem checksum_invariant_cex :
    try_from (List.replicate 15 0 ++ [0xFF]) = PRes.ok (parsedZero 0xFF) ∧
    ¬ ChecksumOk 0x55 (parsedZero 0xFF) ∧
    ¬ ChecksumOk 0x56 Command.default := by decide

/-- For every report id, the default Command and the parsed Command
`parsedZero 0xFF` cannot both satisfy the frame-sum invariant. -/
theorem default_and_parsed_incompatible (reportId : Nat) :
    ¬ (ChecksumOk reportId Command.default ∧ ChecksumOk reportId (parsedZero 0xFF)) := by
  intro h
  obtain ⟨h1, h2⟩ := h
  have g1 : (reportId + 0 + 0 + 0 + 0 + (List.replicate 10 (0 : Nat)).sum + 0) % 256 = 0x55 := h1
  have g2 : (reportId + 0 + 0 + 0 + 0 + List.sum [] + 0xFF) % 256 = 0x55 := h2
  have hz : (List.replicate 10 (0 : Nat)).sum = 0 := rfl
  rw [hz] at g1
  simp only [List.sum_nil] at g2
  omega

/-- C7: on any observable Command, writing a byte value below 256 at an
even offset with `offset + 1 < data_len` succeeds and leaves the byte pair
summing to 0x55 modulo 256; any odd offset is rejected with
`OffsetNotAligned` before anything is written. -/
theorem paired_byte_write :
    (∀ reportId c v off, Observable reportId c → v < 256 → off % 2 = 0 →
        off + 1 < c.data_len →
        ∃ c2, set_data_byte_with_checksum reportId c v off = Res.ok c2 ∧
          (c2.data.getD off 0 + c2.data.getD (off + 1) 0) % 256 = 0x55) ∧
    (∀ reportId c v off, off % 2 = 1 →
        set_data_byte_with_checksum reportId c v off =
          Res.err (Error.OffsetNotAligned off) c) := by
  constructor
  · intro reportId c v off hobs hv he hlt
    have hsh := observable_shape hobs
    have hoff1 : off + 1 < c.data.length := by
      rcases hsh.1 with h | h <;> omega
    have hfst := @set_data_byte_ok reportId c v off
      (show off < c.data_len by omega) (show off < c.data.length by omega)
    set c1 := set_checksum reportId { c with data := c.data.set off v } with hc1
    have hsnd := @set_data_byte_ok reportId c1 (wrappingSub 0x55 v) (off + 1)
      (show off + 1 < c1.data_len by
        rw [hc1]; simp only [set_checksum_data_len]; exact hlt)
      (show off + 1 < c1.data.length by
        rw [hc1]; simp only [set_checksum_data]
        simpa [List.length_set] using hoff1)
    refine ⟨set_checksum reportId
      { c1 with data := c1.data.set (off + 1) (wrappingSub 0x55 v) }, ?_, ?_⟩
    · unfold set_data_byte_with_checksum
      rw [if_neg (by omega), hfst]
      exact hsnd
    · have hdata : (set_checksum reportId
          { c1 with data := c1.data.set (off + 1) (wrappingSub 0x55 v) }).data =
          (c.data.set off v).set (off + 1) (wrappingSub 0x55 v) := by
        rw [hc1]; simp only [set_checksum_data]
      rw [hdata]
      have hlen2 : off + 1 < ((c.data.set off v).set (off + 1) (wrappingSub 0x55 v)).length := by
        simpa [List.length_set] using hoff1
      have hlen1 : off < ((c.data.set off v).set (off + 1) (wrappingSub 0x55 v)).length := by
        simpa [List.length_set] using (by omega : off < c.data.length)
      rw [List.getD_eq_getElem _ _ hlen1, List.getD_eq_getElem _ _ hlen2]
      rw [List.getElem_set_ne (by omega)]
      rw [List.getElem_set_self _]
      rw [List.getElem_set_self _]
      unfold wrappingSub
      omega
  · intro reportId c v off ho
    unfold set_data_byte_with_checksum
    rw [if_pos (by omega)]

theorem addrList_lt (a : Nat) (h : a ∈ addrList) : a < 65536 := by
  have hall : ∀ x ∈ addrList, x < 65536 := by decide
  exact hall a h

/-- A list whose bytes from position `d` on are zero is its own `take d`
padded with zeros. -/
theorem take_pad (l : List Nat) (d n : Nat) (hlen : l.length = n)
    (htail : ∀ i < l.length, d ≤ i → l.getD i 0 = 0) :
    l.take d ++ List.replicate (n - d) 0 = l := by
  rw [← drop_eq_replicate_zero l d n hlen htail]
  exact List.take_append_drop d l

/-- Serialize–parse–serialize round trip for any Command whose buffer
holds exactly 10 bytes, whose `data_len` is at most 10, and whose stored
bytes beyond `data_len` are all zero. -/
theorem roundtrip_zero_tail {c : Command}
    (hid : c.command_id ≤ 0x1b) (haddr : c.eeprom_address ∈ addrList)
    (hlen : c.data.length = 10) (hdl : c.data_len ≤ 10)
    (htail : ∀ i < c.data.length, c.data_len ≤ i → c.data.getD i 0 = 0) :
    ∃ bs c2, as_bytes c = some bs ∧ try_from bs = PRes.ok c2 ∧
      as_bytes c2 = some bs := by
  have haddr16 : c.eeprom_address < 65536 := addrList_lt _ haddr
  have hidm : c.command_id % 256 = c.command_id := Nat.mod_eq_of_lt (by omega)
  have hdlm : c.data_len % 256 = c.data_len := Nat.mod_eq_of_lt (by omega)
  have h1 : as_bytes c =
      some ([c.command_id % 256, c.status, c.eeprom_address / 256 % 256,
             c.eeprom_address % 256, c.data_len % 256] ++ c.data ++ [c.checksum]) := by
    unfold as_bytes
    rw [if_pos (by simp [hlen, CMD_LEN])]
    have hpad : CMD_LEN - (5 + c.data.length) - 1 = 0 := by
      simp [hlen, CMD_LEN]
    rw [hpad]
    simp
  have h2 : try_from ([c.command_id % 256, c.status, c.eeprom_address / 256 % 256,
        c.eeprom_address % 256, c.data_len % 256] ++ c.data ++ [c.checksum]) =
      PRes.ok { command_id := c.command_id, status := c.status,
                eeprom_address := c.eeprom_address, data_len := c.data_len,
                data := c.data.take c.data_len, checksum := c.checksum } := by
    unfold try_from
    split
    · rename_i hcond
      exfalso
      simp [hlen, CMD_LEN] at hcond
    · split
      · rename_i hcond
        exfalso
        simp only [List.cons_append, List.getD_cons_zero] at hcond
        omega
      · split
        · rename_i hcond
          exfalso
          simp only [List.cons_append, List.getD_cons_succ, List.getD_cons_zero] at hcond
          have he : c.eeprom_address / 256 % 256 * 256 + c.eeprom_address % 256 =
              c.eeprom_address := by omega
          rw [he] at hcond
          exact hcond haddr
        · split
          · congr 1
            simp only [List.cons_append, List.getD_cons_succ, List.getD_cons_zero,
              List.nil_append, BASE_OFFSET, List.drop_succ_cons, List.drop_zero]
            simp only [Command.mk.injEq, hidm, hdlm, true_and, and_true]
            refine ⟨by omega, ?_, ?_⟩
            · exact List.take_append_of_le_length (by omega)
            · rw [← hlen]
              exact getD_append_last c.data c.checksum
          · rename_i hcond
            exfalso
            simp only [List.cons_append, List.getD_cons_succ, List.getD_cons_zero,
              BASE_OFFSET, CMD_LEN] at hcond
            simp [hlen] at hcond
            omega
  have hlen2 : (c.data.take c.data_len).length = c.data_len := by
    simp only [List.length_take, hlen]
    omega
  have h3 : as_bytes
      { command_id := c.command_id, status := c.status,
        eeprom_address := c.eeprom_address, data_len := c.data_len,
        data := c.data.take c.data_len, checksum := c.checksum } =
      some ([c.command_id % 256, c.status, c.eeprom_address / 256 % 256,
             c.eeprom_address % 256, c.data_len % 256] ++ c.data ++ [c.checksum]) := by
    unfold as_bytes
    rw [if_pos (show 5 + (c.data.take c.data_len).length + 1 ≤ CMD_LEN by
      rw [hlen2]; simp only [CMD_LEN]; omega)]
    congr 1
    rw [hlen2]
    have hpad2 : CMD_LEN - (5 + c.data_len) - 1 = 10 - c.data_len := by
      simp only [CMD_LEN]; omega
    rw [hpad2]
    rw [List.append_assoc _ (c.data.take c.data_len) (List.replicate (10 - c.data_len) 0)]
    rw [take_pad c.data c.data_len 10 hlen htail]
  exact ⟨_, _, h1, h2, h3⟩

/-- C3 amended: for every mutator-built Command whose `data_len` is at
most 10 and whose stored bytes beyond `data_len` are zero,
`serialize(parse(serialize(cmd))) = serialize(cmd)`. -/
theorem serialize_parse_roundtrip :
    ∀ reportId c, Reachable reportId c → c.data_len ≤ 10 →
      (∀ i < c.data.length, c.data_len ≤ i → c.data.getD i 0 = 0) →
      ∃ bs c2, as_bytes c = some bs ∧ try_from bs = PRes.ok c2 ∧
        as_bytes c2 = some bs := by
  intro reportId c h hdl htail
  have hs := reachable_shape h
  exact roundtrip_zero_tail hs.2.2.1 hs.2.2.2 hs.1 hdl htail

/-- Witness for C3 at the spec's example Command. -/
theorem serialize_parse_roundtrip_witness :
    ∃ bs c2, as_bytes exampleCmd = some bs ∧ try_from bs = PRes.ok c2 ∧
      as_bytes c2 = some bs :=
  serialize_parse_roundtrip 0 exampleCmd
    (Reachable.sdata oneBytePairPre [0xAA, 0xBB] 0 exampleCmd
      (Reachable.slen Command.default 2 oneBytePairPre Reachable.dflt (by decide))
      (by decide) (by decide))
    (by decide) (by decide)

/-- C3 counterexample: `shrunkCmd` is built by three successful mutator
calls, yet serialize-parse-serialize is NOT the identity on it — the parse
drops the stale byte at offset 9, so the second serialization zeroes frame
byte 14 while the first kept 0xAA there. -/
theorem roundtrip_fails_after_shrink :
    Reachable 0 shrunkCmd ∧
    ((as_bytes shrunkCmd).bind (fun bs =>
        match try_from bs with
        | PRes.ok c2 => as_bytes c2
        | _ => none) ≠ as_bytes shrunkCmd) :=
  ⟨Reachable.slen shrunk2 2 shrunkCmd
      (Reachable.sbyte shrunk1 0xAA 9 shrunk2
        (Reachable.slen Command.default 10 shrunk1 Reachable.dflt (by decide))
        (by decide) (by decide))
      (by decide),
    by decide⟩

/-- Default-command facts bearing on C4 (which cannot be fully settled
without the numeric value of `REPORT_ID`): the default has `data_len = 0`,
`command_id = 0`, `eeprom_address = 0`, serializes to 15 zero bytes
followed by the stored checksum byte 0, and that trailing byte equals
`(0x55 - report_id) mod 256` exactly when `report_id ≡ 0x55 (mod 256)`. -/
theorem default_command_facts :
    Command.default.data_len = 0 ∧ Command.default.command_id = 0 ∧
    Command.default.eeprom_address = 0 ∧
    as_bytes Command.default = some (List.replicate 15 0 ++ [0]) ∧
    (∀ reportId, Command.default.checksum = wrappingSub 0x55 reportId ↔
      reportId % 256 = 0x55) := by
  refine ⟨rfl, rfl, rfl, by decide, fun reportId => ?_⟩
  show (0 : Nat) = (0x55 % 256 + 256 - reportId % 256) % 256 ↔ reportId % 256 = 0x55
  omega

/-- Witness for C7: a reachable Command with `data_len = 2` accepts the
paired write at offset 0 with the pair summing to 0x55, and rejects the
odd offset 1. -/
theorem paired_byte_write_witness :
    (∃ c2, set_data_byte_with_checksum 0 oneBytePairPre 0x60 0 = Res.ok c2 ∧
        (c2.data.getD 0 0 + c2.data.getD 1 0) % 256 = 0x55) ∧
    set_data_byte_with_checksum 0 oneBytePairPre 0x60 1 =
      Res.err (Error.OffsetNotAligned 1) oneBytePairPre :=
  ⟨paired_byte_write.1 0 oneBytePairPre 0x60 0
      (Or.inl (Reachable.slen Command.default 2 oneBytePairPre Reachable.dflt (by decide)))
      (by decide) (by decide) (by decide),
   paired_byte_write.2 0 oneBytePairPre 0x60 1 (by decide)⟩

end Libatk
